import Mathlib

/-
Verification of backupmpps.py: a shallow embedding of the record fetcher, the
asset downloader, the asset compressor and the batch orchestrator, together
with theorems settling the specification claims.
-/

namespace BackupMpps

/-- JSON values, as produced by `res.json()` in the source. -/
inductive JVal where
  | null : JVal
  | str : String → JVal
  | num : Int → JVal
  | boolean : Bool → JVal
  | arr : List JVal → JVal
  | obj : List (String × JVal) → JVal

/-- Python dict lookup `d[k]` on a JSON object's field list (first binding wins;
JSON objects have unique keys). `none` corresponds to a `KeyError`. -/
def jlookup : List (String × JVal) → String → Option JVal
  | [], _ => none
  | (k, v) :: rest, key => if k = key then some v else jlookup rest key

/-- Exceptions that can escape the fetch path. `apiExc` is
`ExtraviadosMxApiException`, the spec's DataSourceError; `typeErr` models a
Python `TypeError` (for example `cls(**api_dict)` with a missing or extra
key); `valueErr` models a `ValueError` (for example `strptime` on a malformed
date); `requestsExc` models a transport exception escaping `requests.get`. -/
inductive FetchErr where
  | apiExc | typeErr | valueErr | requestsExc
deriving DecidableEq, Repr

/-- Model of the `Mpp` dataclass. `cls(**api_dict)` stores the raw JSON values
in every field; afterwards `from_api_dict` overwrites the five date fields
with parsed dates. A parsed date is modelled as the validated raw string
(`none` for JSON null); the `datetime` objects themselves are irrelevant to
every claim. -/
structure Mpp where
  id : JVal
  slug : JVal
  mp_name : JVal
  mp_height : JVal
  mp_weight : JVal
  mp_physical_build : JVal
  mp_complexion : JVal
  mp_sex : JVal
  mp_age_when_disappeared : JVal
  mp_eyes_description : JVal
  mp_hair_description : JVal
  mp_outfit_description : JVal
  mp_identifying_characteristics : JVal
  circumstances_behind_dissapearance : JVal
  missing_from : JVal
  found : JVal
  alert_type : JVal
  po_state : JVal
  po_post_url : JVal
  po_poster_url : JVal
  is_multiple : JVal
  mp_dob : Option String
  missing_date : Option String
  po_post_publication_date : Option String
  updated_at : Option String
  created_at : Option String

/-- Oracles for Python date parsing: `strptime_ok s` tells whether
`datetime.strptime(s, "%Y-%m-%d")` succeeds and `fromisoformat_ok s` whether
`datetime.fromisoformat(s)` succeeds. -/
structure DateLib where
  strptime_ok : String → Bool
  fromisoformat_ok : String → Bool

/-- Model of `None if raw is None else parse(raw)` for one raw date value:
null parses to `none`, a string must pass the parsing oracle (`ValueError`
otherwise), and any other JSON value raises `TypeError`, as `strptime` and
`fromisoformat` do on a non-string. -/
def parse_date (ok : String → Bool) : JVal → Except FetchErr (Option String)
  | .null => .ok none
  | .str s => if ok s then .ok (some s) else .error .valueErr
  | _ => .error .typeErr

/-- The parameter names of the `Mpp` dataclass, in declaration order.
`cls(**api_dict)` succeeds exactly when the dict's key set is exactly this
set. -/
def mppKeys : List String :=
  ["id", "slug", "mp_name", "mp_height", "mp_weight", "mp_physical_build",
   "mp_complexion", "mp_sex", "mp_dob", "mp_age_when_disappeared",
   "mp_eyes_description", "mp_hair_description", "mp_outfit_description",
   "mp_identifying_characteristics", "circumstances_behind_dissapearance",
   "missing_from", "missing_date", "found", "alert_type", "po_state",
   "po_post_url", "po_post_publication_date", "po_poster_url", "is_multiple",
   "updated_at", "created_at"]

/-- Whether `cls(**d)` succeeds: every dataclass parameter is present and no
key falls outside the parameter list. -/
def keysExact (d : List (String × JVal)) : Bool :=
  mppKeys.all (fun k => (jlookup d k).isSome) && d.all (fun p => mppKeys.contains p.1)

/-- Raw field access used to populate the dataclass once `keysExact` holds
(the default is unreachable then). -/
def jget (d : List (String × JVal)) (k : String) : JVal :=
  (jlookup d k).getD .null

/-- Model of `Mpp.from_api_dict`. The five date keys are read first (a missing
one is a `KeyError`, re-raised as the API exception); the date values are
then parsed, possibly raising `ValueError` or `TypeError`; finally
`cls(**api_dict)` requires the key set to be exactly `mppKeys` (`TypeError`
otherwise) and the parsed dates overwrite the five raw fields. A non-object
record value raises `TypeError` at the first subscript. -/
def Mpp.from_api_dict (lib : DateLib) : JVal → Except FetchErr Mpp
  | .obj d =>
    match jlookup d "mp_dob", jlookup d "missing_date",
        jlookup d "po_post_publication_date", jlookup d "updated_at",
        jlookup d "created_at" with
    | some raw_mp_dob, some raw_missing_date, some raw_ppd, some raw_upd,
      some raw_crd => do
      let mp_dob ← parse_date lib.strptime_ok raw_mp_dob
      let missing_date ← parse_date lib.strptime_ok raw_missing_date
      let ppd ← parse_date lib.strptime_ok raw_ppd
      let upd ← parse_date lib.fromisoformat_ok raw_upd
      let crd ← parse_date lib.fromisoformat_ok raw_crd
      if keysExact d then
        .ok { id := jget d "id", slug := jget d "slug",
              mp_name := jget d "mp_name", mp_height := jget d "mp_height",
              mp_weight := jget d "mp_weight",
              mp_physical_build := jget d "mp_physical_build",
              mp_complexion := jget d "mp_complexion",
              mp_sex := jget d "mp_sex",
              mp_age_when_disappeared := jget d "mp_age_when_disappeared",
              mp_eyes_description := jget d "mp_eyes_description",
              mp_hair_description := jget d "mp_hair_description",
              mp_outfit_description := jget d "mp_outfit_description",
              mp_identifying_characteristics := jget d "mp_identifying_characteristics",
              circumstances_behind_dissapearance := jget d "circumstances_behind_dissapearance",
              missing_from := jget d "missing_from",
              found := jget d "found", alert_type := jget d "alert_type",
              po_state := jget d "po_state",
              po_post_url := jget d "po_post_url",
              po_poster_url := jget d "po_poster_url",
              is_multiple := jget d "is_multiple",
              mp_dob := mp_dob, missing_date := missing_date,
              po_post_publication_date := ppd, updated_at := upd,
              created_at := crd }
      else .error .typeErr
    | _, _, _, _, _ => .error .apiExc
  | _ => .error .typeErr

/-- Model of the `RetrieveMppsApiBody` dataclass; `next`, `previous` and
`count` keep their raw JSON values (the source never validates their
types). -/
structure RetrieveMppsApiBody where
  next : JVal
  previous : JVal
  count : JVal
  results : List Mpp

/-- Model of `RetrieveMppsApiBody.from_api_dict`: the four page keys are read
(a missing one raises the API exception), then each element of `results` is
parsed left to right, the first failure aborting. A non-array `results` or a
non-object body raises `TypeError`. -/
def RetrieveMppsApiBody.from_api_dict (lib : DateLib) :
    JVal → Except FetchErr RetrieveMppsApiBody
  | .obj d =>
    match jlookup d "results", jlookup d "next", jlookup d "previous",
        jlookup d "count" with
    | some rawResults, some nxt, some prev, some cnt =>
      match rawResults with
      | .arr xs => do
        let results ← xs.mapM (Mpp.from_api_dict lib)
        .ok ⟨nxt, prev, cnt, results⟩
      | _ => .error .typeErr
    | _, _, _, _ => .error .apiExc
  | _ => .error .typeErr

/-- One `requests.get` response from the listing API: status code and the
result of `res.json()` (`none` models a `JSONDecodeError`). -/
structure HttpResp where
  status : Nat
  body : Option JVal

/-- The remote listing API as a black box: what `requests.get url` yields;
`none` models a transport exception raised by `requests.get` itself. -/
structure World where
  resp : String → Option HttpResp

/-- Model of `_retrieve_mpps_by_updated_at_date`: one listing request. A
non-200 status or an undecodable body raises the API exception. -/
def _retrieve_mpps_by_updated_at_date (w : World) (lib : DateLib) (url : String) :
    Except FetchErr RetrieveMppsApiBody :=
  match w.resp url with
  | none => .error .requestsExc
  | some res =>
    if res.status ≠ 200 then .error .apiExc
    else
      match res.body with
      | none => .error .apiExc
      | some v => RetrieveMppsApiBody.from_api_dict lib v

/-- The `while api_res.next is not None` loop of
`retrieve_mpps_by_updated_at_date`, with explicit fuel (`none` means the fuel
ran out; every claim is proved with sufficient fuel). Returns the URLs
requested by the loop, in order, together with either the records the loop
accumulates or the exception that aborted it. A non-null, non-string `next`
makes `requests.get` raise, modelled as `typeErr`. -/
def retrieve_while (w : World) (lib : DateLib) :
    Nat → JVal → Option (List String × Except FetchErr (List Mpp))
  | _, .null => some ([], .ok [])
  | 0, .str _ => none
  | fuel + 1, .str url =>
    match _retrieve_mpps_by_updated_at_date w lib url with
    | .error e => some ([url], .error e)
    | .ok body =>
      match retrieve_while w lib fuel body.next with
      | none => none
      | some (urls, r) => some (url :: urls, r.map (body.results ++ ·))
  | _, _ => some ([], .error .typeErr)

/-- Body of `retrieve_mpps_by_updated_at_date` from its first request on:
fetch `url`, then run the pagination loop, prepending the first page's
results. -/
def retrieve_from (w : World) (lib : DateLib) (url : String) (fuel : Nat) :
    Option (List String × Except FetchErr (List Mpp)) :=
  match _retrieve_mpps_by_updated_at_date w lib url with
  | .error e => some ([url], .error e)
  | .ok body =>
    match retrieve_while w lib fuel body.next with
    | none => none
    | some (urls, r) => some (url :: urls, r.map (body.results ++ ·))

/-- The first listing URL built by `retrieve_mpps_by_updated_at_date`;
`urllib.parse.urlencode` leaves ISO dates unchanged, so it is plain
concatenation here. -/
def listing_url (endpoint_url : Option String)
    (updated_at_after updated_at_before : String) : String :=
  (endpoint_url.getD "https://extraviados.mx") ++ "/api/v1/mpps/?updated_at_after=" ++
    updated_at_after ++ "&updated_at_before=" ++ updated_at_before

/-- Model of `retrieve_mpps_by_updated_at_date`, returning the requested URLs
and the outcome. -/
def retrieve_mpps_by_updated_at_date (w : World) (lib : DateLib)
    (updated_at_after updated_at_before : String) (endpoint_url : Option String)
    (fuel : Nat) : Option (List String × Except FetchErr (List Mpp)) :=
  retrieve_from w lib (listing_url endpoint_url updated_at_after updated_at_before) fuel

/-- Index of the last occurrence of `c` in `l`, or `-1` when absent, mirroring
Python `str.rfind`. -/
def rfind (l : List Char) (c : Char) : Int :=
  match l.reverse.findIdx? (· = c) with
  | none => -1
  | some i => (l.length : Int) - 1 - i

/-- Model of `os.path.splitext` (posix) on the characters of a path: split at
the last dot after the last separator, except that leading dots of the
basename never start an extension. -/
def splitextList (p : List Char) : List Char × List Char :=
  let sepIndex := rfind p '/'
  let dotIndex := rfind p '.'
  if sepIndex < dotIndex then
    if (List.range (dotIndex.toNat - (sepIndex + 1).toNat)).all
        (fun k => p.getD ((sepIndex + 1).toNat + k) '/' = '.') then
      (p, [])
    else (p.take dotIndex.toNat, p.drop dotIndex.toNat)
  else (p, [])

/-- Model of `os.path.splitext` on strings. -/
def splitext (s : String) : String × String :=
  let r := splitextList s.data
  (⟨r.1⟩, ⟨r.2⟩)

/-- Contents of one local file: raw bytes, or UTF-8 text (written by
`_save_text_file`). -/
inductive FContent where
  | bytes : List Nat → FContent
  | text : String → FContent
deriving DecidableEq, Repr

/-- The scratch directory's file set: an association list from filename to
content. -/
abbrev FS := List (String × FContent)

/-- Read a file (`none` when the path does not exist). -/
def fsGet : FS → String → Option FContent
  | [], _ => none
  | (k, v) :: rest, n => if k = n then some v else fsGet rest n

/-- Remove a path. -/
def fsDel : FS → String → FS
  | [], _ => []
  | (k, v) :: rest, n => if k = n then fsDel rest n else (k, v) :: fsDel rest n

/-- Write a file, replacing any previous content. -/
def fsSet (fs : FS) (n : String) (c : FContent) : FS :=
  (n, c) :: fsDel fs n

/-- Outcome of the `gs` invocation in `compress_pdf` (run with `check=True`):
clean exit, nonzero exit (`CalledProcessError`), or `TimeoutExpired`. -/
inductive GsRun where
  | ok | fail | timeout
deriving DecidableEq, Repr

/-- Outcome of one `jpegoptim` or `pngcrush` invocation: clean exit,
wrong-format signal (for jpegoptim a `CalledProcessError` whose output
contains "Not a JPEG file", for pngcrush a clean exit with "Not a PNG file"
on stderr), nonzero exit without that signal, or `TimeoutExpired`. -/
inductive ToolRun where
  | ok | mismatch | fail | timeout
deriving DecidableEq, Repr

/-- Black-box behaviour of the three external tools on the file the compressor
is working on, together with the bytes each tool would produce when it
succeeds. `gsPartial` is whatever a failed `gs` run leaves in its `.tmp`
output file. -/
structure ToolEnv where
  gs : GsRun
  gsContent : List Nat
  gsPartial : List Nat
  mvOk : Bool
  jpegoptim : ToolRun
  jpegoptimContent : List Nat
  pngcrush : ToolRun
  pngcrushContent : List Nat

/-- Exceptions inside the compression path: `ValueError` with its message,
`subprocess.CalledProcessError`, and `subprocess.TimeoutExpired`. -/
inductive PyExc where
  | valueError : String → PyExc
  | calledProcessError : PyExc
  | timeoutExpired : PyExc
deriving DecidableEq, Repr

/-- Whether `needle` occurs at the start of `hay`. -/
def charsStartWith : List Char → List Char → Bool
  | [], _ => true
  | _ :: _, [] => false
  | a :: as, b :: bs => a == b && charsStartWith as bs

/-- Whether `needle` occurs anywhere in `hay`. -/
def charsContain (hay needle : List Char) : Bool :=
  match hay with
  | [] => needle.isEmpty
  | _ :: t => charsStartWith needle hay || charsContain t needle

/-- Python substring test `needle in hay`. -/
def strContains (hay needle : String) : Bool :=
  charsContain hay.data needle.data

/-- Model of `compress_pdf`: run `gs` writing into `filename + ".tmp"` (a
failed or timed-out run raises and may leave partial output there), then
`mv --force` the tmp file onto the original; the mv runs with `check=True`,
so a failing mv raises `CalledProcessError` and leaves the original file in
place. -/
def compress_pdf (env : ToolEnv) (filename : String) (fs : FS) :
    Except PyExc String × FS :=
  let tmp_filename := filename ++ ".tmp"
  match env.gs with
  | .timeout => (.error .timeoutExpired, fsSet fs tmp_filename (.bytes env.gsPartial))
  | .fail => (.error .calledProcessError, fsSet fs tmp_filename (.bytes env.gsPartial))
  | .ok =>
    let fs1 := fsSet fs tmp_filename (.bytes env.gsContent)
    if env.mvOk then
      (.ok filename, fsSet (fsDel fs1 tmp_filename) filename (.bytes env.gsContent))
    else (.error .calledProcessError, fs1)

/-- Model of `_change_extension`: compute the new name from the splitext root,
`mv --force` the file onto it (this run has no `check=True`, so a failing mv
is silently ignored), and return the new name regardless. -/
def _change_extension (filename : String) (new_ext : String) (fs : FS) :
    String × FS :=
  let root := (splitext filename).1
  let final_filename := root ++ new_ext
  match fsGet fs filename with
  | none => (final_filename, fs)
  | some c => (final_filename, fsSet (fsDel fs filename) final_filename c)

/-- Model of `compress_png`: run `pngcrush -brute -ow` in place with
`check=True`; a clean run whose stderr reports "Not a PNG file" raises
`ValueError` without touching the file; otherwise the file is recompressed in
place and, when its extension is not already `.png`, renamed via
`_change_extension`. -/
def compress_png (env : ToolEnv) (filename : String) (fs : FS) :
    Except PyExc String × FS :=
  match env.pngcrush with
  | .timeout => (.error .timeoutExpired, fs)
  | .fail => (.error .calledProcessError, fs)
  | .mismatch => (.error (.valueError "Not a PNG file"), fs)
  | .ok =>
    let fs1 := fsSet fs filename (.bytes env.pngcrushContent)
    if (splitext filename).2 = ".png" then (.ok filename, fs1)
    else
      let r := _change_extension filename ".png" fs1
      (.ok r.1, r.2)

/-- Model of `compress_jpeg`: run `jpegoptim` in place with `check=True`; a
`CalledProcessError` whose output contains "Not a JPEG file" is re-raised as
`ValueError`, any other `CalledProcessError` is re-raised as is; on success
the file is optimized in place and, when its extension is not already
`.jpeg`, renamed via `_change_extension`. -/
def compress_jpeg (env : ToolEnv) (filename : String) (fs : FS) :
    Except PyExc String × FS :=
  match env.jpegoptim with
  | .timeout => (.error .timeoutExpired, fs)
  | .fail => (.error .calledProcessError, fs)
  | .mismatch => (.error (.valueError "Not a JPEG file"), fs)
  | .ok =>
    let fs1 := fsSet fs filename (.bytes env.jpegoptimContent)
    if (splitext filename).2 = ".jpeg" then (.ok filename, fs1)
    else
      let r := _change_extension filename ".jpeg" fs1
      (.ok r.1, r.2)

/-- Log events emitted by `_compress_file`: `failLog` for the
`logging.error` / `logging.exception` lines reporting that a file could not
be compressed, `fallbackInfo` for the `logging.info` line reporting a
successful cross-format fallback rename. -/
inductive CLog where
  | failLog : String → CLog
  | fallbackInfo : String → String → CLog
deriving DecidableEq, Repr

/-- Model of `_compress_file`: dispatch on the splitext extension. The `.pdf`
branch catches only `CalledProcessError` (logging it); the `.jpeg` and `.png`
branches catch a wrong-format `ValueError` and retry the sibling compressor,
catching any of its exceptions, and catch every other exception as well; any
other extension passes through untouched. Returns the resulting exception or
final filename, the resulting file set, and the log lines emitted. -/
def _compress_file (env : ToolEnv) (filename : String) (fs : FS) :
    Except PyExc String × FS × List CLog :=
  let ext := (splitext filename).2
  if ext = ".pdf" then
    match compress_pdf env filename fs with
    | (.ok f, fs1) => (.ok f, fs1, [])
    | (.error .calledProcessError, fs1) => (.ok filename, fs1, [.failLog filename])
    | (.error e, fs1) => (.error e, fs1, [])
  else if ext = ".jpeg" then
    match compress_jpeg env filename fs with
    | (.ok f, fs1) => (.ok f, fs1, [])
    | (.error (.valueError m), fs1) =>
      if strContains m "Not a JPEG file" then
        match compress_png env filename fs1 with
        | (.ok f, fs2) => (.ok f, fs2, [.fallbackInfo filename f])
        | (.error _, fs2) => (.ok filename, fs2, [.failLog filename])
      else (.ok filename, fs1, [.failLog filename])
    | (.error _, fs1) => (.ok filename, fs1, [.failLog filename])
  else if ext = ".png" then
    match compress_png env filename fs with
    | (.ok f, fs1) => (.ok f, fs1, [])
    | (.error (.valueError m), fs1) =>
      if strContains m "Not a PNG file" then
        match compress_jpeg env filename fs1 with
        | (.ok f, fs2) => (.ok f, fs2, [.fallbackInfo filename f])
        | (.error _, fs2) => (.ok filename, fs2, [.failLog filename])
      else (.ok filename, fs1, [.failLog filename])
    | (.error _, fs1) => (.ok filename, fs1, [.failLog filename])
  else (.ok filename, fs, [])

/-- Exceptions raised by `requests.get` on an asset URL: a certificate
validation failure (`requests.exceptions.SSLError`) or any other requests
exception. -/
inductive NetErr where
  | ssl | other
deriving DecidableEq, Repr

/-- One response to a streaming asset request: status code, the declared
Content-Type header (`none` when the header is absent), the raw body bytes
and the decoded text body. -/
structure DlResp where
  status : Nat
  contentType : Option String
  rawBody : List Nat
  textBody : String

/-- The asset network as a black box: the outcome of `requests.get` on a URL,
as a function of the certificate-verification flag. -/
structure Net where
  get : String → Bool → Except NetErr DlResp

/-- Errors escaping `download_url`: a requests exception from the fetch, the
`HTTPError` from `raise_for_status` (the spec's TransportError), or the
`ValueError` for an unsupported content type (the spec's
UnsupportedContentTypeError), carrying the normalised content type. -/
inductive DlErr where
  | netErr : NetErr → DlErr
  | httpError : Nat → DlErr
  | valueError : String → DlErr
deriving DecidableEq, Repr

/-- Model of Python `str.split` with a one-character separator, on
characters. -/
def splitChars (sep : Char) : List Char → List (List Char)
  | [] => [[]]
  | c :: rest =>
    let r := splitChars sep rest
    if c = sep then [] :: r
    else (c :: r.headD []) :: r.tail

/-- Model of Python `str.split` with a one-character separator. -/
def pySplit (s : String) (sep : Char) : List String :=
  (splitChars sep s.data).map (fun l => ⟨l⟩)

/-- Model of `_save_file`: the extension is the part of the declared content
type after the "/" (the allow-listed types all have exactly one "/") and the
raw body is streamed to the final filename. -/
def _save_file (res : DlResp) (content_type filename : String) (fs : FS) :
    String × FS :=
  let ext := (pySplit content_type '/').getD 1 ""
  let final_filename := filename ++ "." ++ ext
  (final_filename, fsSet fs final_filename (.bytes res.rawBody))

/-- Model of `_save_text_file`: the decoded text is written to
`filename ++ ".html"`. -/
def _save_text_file (res : DlResp) (filename : String) (fs : FS) :
    String × FS :=
  let final_filename := filename ++ ".html"
  (final_filename, fsSet fs final_filename (.text res.textBody))

/-- Model of Python `str.strip` on characters: drop whitespace from both
ends. -/
def stripChars (l : List Char) : List Char :=
  ((l.dropWhile Char.isWhitespace).reverse.dropWhile Char.isWhitespace).reverse

/-- The header normalisation in `download_url`: read the Content-Type header,
defaulting to the empty string, then apply `.lower().strip()`. -/
def normalizeCT (h : Option String) : String :=
  ⟨stripChars ((h.getD "").data.map Char.toLower)⟩

/-- Result of one `download_url` call: the returned filename or the escaping
exception, the resulting file set, the certificate-verification flags of the
`requests.get` calls performed in order, and whether the SSL-downgrade
warning was logged. -/
structure DlOut where
  result : Except DlErr String
  fs : FS
  gets : List Bool
  sslWarned : Bool

/-- Dispatch of `download_url` once a response has been obtained:
`raise_for_status` raises `HTTPError` on a 4xx or 5xx status; then the
normalised content type picks the saver, any unlisted type raising
`ValueError` before anything is written. -/
def save_response (res : DlResp) (filename : String) (fs : FS) :
    Except DlErr String × FS :=
  if 400 ≤ res.status ∧ res.status < 600 then (.error (.httpError res.status), fs)
  else
    let content_type := normalizeCT res.contentType
    if content_type = "application/pdf" ∨ content_type = "image/jpeg" ∨
        content_type = "image/png" then
      let r := _save_file res content_type filename fs
      (.ok r.1, r.2)
    else if content_type = "text/html; charset=utf-8" then
      let r := _save_text_file res filename fs
      (.ok r.1, r.2)
    else (.error (.valueError content_type), fs)

/-- Model of `download_url`: fetch with certificate verification on; on an
`SSLError` log a warning and retry exactly once with verification off; any
other fetch failure, and any failure of the retry, propagates; then save
according to the declared content type. -/
def download_url (net : Net) (url filename : String) (fs : FS) : DlOut :=
  match net.get url true with
  | .error .ssl =>
    match net.get url false with
    | .error e => ⟨.error (.netErr e), fs, [true, false], true⟩
    | .ok res =>
      let r := save_response res filename fs
      ⟨r.1, r.2, [true, false], true⟩
  | .error e => ⟨.error (.netErr e), fs, [true], false⟩
  | .ok res =>
    let r := save_response res filename fs
    ⟨r.1, r.2, [true], false⟩

/-- The per-asset pipeline steps. -/
inductive Step where
  | download | compress | upload | cleanup
deriving DecidableEq, Repr

/-- Whether an attempted step succeeded, or failed with the failure caught and
logged. -/
inductive Outcome where
  | success | failure
deriving DecidableEq, Repr

/-- The external collaborators of `_process_url`: the asset network, the
external compression tools, the S3 client (whether `upload_file` succeeds on
a given filename) and `os.remove` (whether deleting a given existing file
succeeds). -/
structure PipeEnv where
  net : Net
  tools : ToolEnv
  s3ok : String → Bool
  rmOk : String → Bool

/-- Model of `_process_url`. Every stage runs in its own `try` block: a
download failure is logged and ends the asset early; a compression failure is
logged and the download filename is kept; the upload and then the deletion
are always attempted next, each failure being caught and logged; deleting a
missing path is a caught `FileNotFoundError`. The function itself never
raises. Returns the trace of attempted steps with their outcomes, and the
resulting file set. -/
def _process_url (p : PipeEnv) (url filename : String) (fs : FS) :
    List (Step × Outcome) × FS :=
  let d := download_url p.net url filename fs
  match d.result with
  | .error _ => ([(.download, .failure)], d.fs)
  | .ok fn =>
    let c := _compress_file p.tools fn d.fs
    let fn2 := match c.1 with
      | .ok f => f
      | .error _ => fn
    let cOut : Outcome := match c.1 with
      | .ok _ => .success
      | .error _ => .failure
    let upOut : Outcome := if p.s3ok fn2 then .success else .failure
    let rm : Outcome × FS :=
      match fsGet c.2.1 fn2 with
      | none => (.failure, c.2.1)
      | some _ =>
        if p.rmOk fn2 then (.success, fsDel c.2.1 fn2) else (.failure, c.2.1)
    ([(.download, .success), (.compress, cOut), (.upload, upOut),
      (.cleanup, rm.1)], rm.2)

/-- The fields of one record that `backup_mpps` reads: the id, used to build
the two local base names, and the two asset URLs. -/
structure MppR where
  id : String
  po_post_url : String
  po_poster_url : String
deriving DecidableEq, Repr

/-- One loop iteration of `backup_mpps`: the two asset traces and the progress
line `PROGRESS [ i+1 / total ]`. -/
structure RecordOut where
  post : List (Step × Outcome)
  poster : List (Step × Outcome)
  prog : Nat × Nat
deriving DecidableEq, Repr

/-- The loop of `backup_mpps` over the remaining records, carrying the 0-based
index of the first of them and the total count. The per-record catch-all of
the source is unreachable here because `_process_url` never raises. -/
def backup_mpps_loop (p : PipeEnv) (tmpdirname : String) :
    List MppR → Nat → Nat → FS → List RecordOut × FS
  | [], _, _, fs => ([], fs)
  | mpp :: rest, i, total, fs =>
    let post_filename := tmpdirname ++ "/" ++ mpp.id ++ ".po_post_url"
    let r1 := _process_url p mpp.po_post_url post_filename fs
    let poster_filename := tmpdirname ++ "/" ++ mpp.id ++ ".po_poster_url"
    let r2 := _process_url p mpp.po_poster_url poster_filename r1.2
    let rs := backup_mpps_loop p tmpdirname rest (i + 1) total r2.2
    (⟨r1.1, r2.1, (i + 1, total)⟩ :: rs.1, rs.2)

/-- Model of `backup_mpps`: process each record's two assets in turn,
reporting progress after each record. -/
def backup_mpps (p : PipeEnv) (tmpdirname : String) (mpps : List MppR)
    (fs : FS) : List RecordOut × FS :=
  backup_mpps_loop p tmpdirname mpps 0 mpps.length fs

/-- Concrete tool behaviours shared by the witnesses: all three tools
succeed. -/
def allOkTools : ToolEnv := ⟨.ok, [3], [4], true, .ok, [5], .ok, [6]⟩

/-- Concrete tool behaviours: jpegoptim reports "Not a JPEG file" and
pngcrush succeeds, i.e. the file is really a PNG. -/
def pngInside : ToolEnv := ⟨.ok, [3], [4], true, .mismatch, [5], .ok, [6]⟩

/-- Concrete tool behaviours: pngcrush reports "Not a PNG file" and jpegoptim
succeeds, i.e. the file is really a JPEG. -/
def jpegInside : ToolEnv := ⟨.ok, [3], [4], true, .ok, [5], .mismatch, [6]⟩

/-- Concrete tool behaviours: gs exits nonzero. -/
def gsFails : ToolEnv := ⟨.fail, [3], [4], true, .ok, [5], .ok, [6]⟩

/-- A network whose certificate cannot be validated: fetching with
verification fails with `SSLError`, fetching without it succeeds. -/
def sslNet : Net :=
  ⟨fun _ v => if v then .error .ssl else .ok ⟨200, some "image/png", [2], ""⟩⟩

/-- A network that declares plain `text/html` (no charset parameter) with a
successful status. -/
def plainHtmlNet : Net :=
  ⟨fun _ _ => .ok ⟨200, some "text/html", [1], "x"⟩⟩

/-- A network that declares `image/png` with a successful status. -/
def pngNet : Net :=
  ⟨fun _ _ => .ok ⟨200, some "image/png", [7, 8], ""⟩⟩

/-- An environment whose uploads always fail while everything else
succeeds. -/
def upFailEnv : PipeEnv := ⟨pngNet, allOkTools, fun _ => false, fun _ => true⟩

/-- A network on which the URL "p1b" (the poster of the first witness record)
fails with a non-SSL error while every other URL succeeds as a PNG. -/
def failPosterNet : Net :=
  ⟨fun u _ => if u = "p1b" then .error .other
    else .ok ⟨200, some "image/png", [1], ""⟩⟩

/-- Environment for the `c2_per_record_isolation` witness. -/
def pW : PipeEnv := ⟨failPosterNet, allOkTools, fun _ => true, fun _ => true⟩

/-- The three witness records. -/
def recsW : List MppR :=
  [⟨"r1", "p1a", "p1b"⟩, ⟨"r2", "p2a", "p2b"⟩, ⟨"r3", "p3a", "p3b"⟩]

/-- The progress lines the orchestrator is expected to emit for `n` records
starting at 0-based index `i`: `(i+1, total)`, `(i+2, total)`, and so on.
This is spec-side: the claim's expected counter sequence. -/
def progList (total : Nat) : Nat → Nat → List (Nat × Nat)
  | _, 0 => []
  | i, n + 1 => (i + 1, total) :: progList total (i + 1) n

/-- The world responds at `url` with a 200 status, a decodable body and a
parseable page whose `next` locator is `nxt` and whose records are `rs`. -/
def respondsWith (w : World) (lib : DateLib) (url : String) (nxt : JVal)
    (rs : List Mpp) : Prop :=
  ∃ prev cnt, _retrieve_mpps_by_updated_at_date w lib url =
    .ok ⟨nxt, prev, cnt, rs⟩

/-- A finite linear pagination chain in world `w`: from `url`, the pages
`(url, results)` follow one another through string `next` locators until a
page whose `next` is null. -/
inductive Chain (w : World) (lib : DateLib) :
    String → List (String × List Mpp) → Prop
  | last {url rs} : respondsWith w lib url .null rs → Chain w lib url [(url, rs)]
  | cons {url url2 rs rest} : respondsWith w lib url (.str url2) rs →
      Chain w lib url2 rest → Chain w lib url ((url, rs) :: rest)

/-- Date-parsing oracles that accept every string. -/
def anyDates : DateLib := ⟨fun _ => true, fun _ => true⟩

/-- A complete record object as served by the API, with the given id and null
dates. -/
def mppObj (idv : String) : JVal :=
  .obj [("id", .str idv), ("slug", .str "s"), ("mp_name", .str "n"),
    ("mp_height", .null), ("mp_weight", .null),
    ("mp_physical_build", .str ""), ("mp_complexion", .str ""),
    ("mp_sex", .str ""), ("mp_dob", .null),
    ("mp_age_when_disappeared", .num 1),
    ("mp_eyes_description", .str ""), ("mp_hair_description", .str ""),
    ("mp_outfit_description", .str ""),
    ("mp_identifying_characteristics", .str ""),
    ("circumstances_behind_dissapearance", .str ""),
    ("missing_from", .str ""), ("missing_date", .null),
    ("found", .boolean false), ("alert_type", .str ""),
    ("po_state", .str ""), ("po_post_url", .str "u1"),
    ("po_post_publication_date", .null), ("po_poster_url", .str "u2"),
    ("is_multiple", .boolean false), ("updated_at", .null),
    ("created_at", .null)]

/-- The parsed form of `mppObj idv`. -/
def mppRec (idv : String) : Mpp :=
  ⟨.str idv, .str "s", .str "n", .null, .null, .str "", .str "", .str "",
    .num 1, .str "", .str "", .str "", .str "", .str "", .str "",
    .boolean false, .str "", .str "", .str "u1", .str "u2", .boolean false,
    none, none, none, none, none⟩

/-- A world serving a two-page listing: the first (window) URL yields two
records and the locator "page2"; "page2" yields one record and a null
`next`. -/
def twoPageWorld : World :=
  ⟨fun u =>
    if u = listing_url (some "e") "d1" "d2" then
      some ⟨200, some (.obj [("results", .arr [mppObj "a", mppObj "b"]),
        ("next", .str "page2"), ("previous", .null), ("count", .num 3)])⟩
    else if u = "page2" then
      some ⟨200, some (.obj [("results", .arr [mppObj "c"]),
        ("next", .null), ("previous", .str "x"), ("count", .num 3)])⟩
    else none⟩

/-- A complete record object except that it lacks the `id` key; the five date
keys are all present. -/
def mppObjNoId : JVal :=
  .obj [("slug", .str "s"), ("mp_name", .str "n"),
    ("mp_height", .null), ("mp_weight", .null),
    ("mp_physical_build", .str ""), ("mp_complexion", .str ""),
    ("mp_sex", .str ""), ("mp_dob", .null),
    ("mp_age_when_disappeared", .num 1),
    ("mp_eyes_description", .str ""), ("mp_hair_description", .str ""),
    ("mp_outfit_description", .str ""),
    ("mp_identifying_characteristics", .str ""),
    ("circumstances_behind_dissapearance", .str ""),
    ("missing_from", .str ""), ("missing_date", .null),
    ("found", .boolean false), ("alert_type", .str ""),
    ("po_state", .str ""), ("po_post_url", .str "u1"),
    ("po_post_publication_date", .null), ("po_poster_url", .str "u2"),
    ("is_multiple", .boolean false), ("updated_at", .null),
    ("created_at", .null)]

/-- A world whose every page is a 200, valid-JSON listing containing one
record that lacks the required `id` field. -/
def badWorld : World :=
  ⟨fun _ => some ⟨200, some (.obj [("results", .arr [mppObjNoId]),
    ("next", .null), ("previous", .null), ("count", .num 1)])⟩⟩

/-- A complete record object except that it lacks the `mp_dob` date key. -/
def mppObjNoDob : JVal :=
  .obj [("id", .str "x"), ("slug", .str "s"), ("mp_name", .str "n"),
    ("mp_height", .null), ("mp_weight", .null),
    ("mp_physical_build", .str ""), ("mp_complexion", .str ""),
    ("mp_sex", .str ""),
    ("mp_age_when_disappeared", .num 1),
    ("mp_eyes_description", .str ""), ("mp_hair_description", .str ""),
    ("mp_outfit_description", .str ""),
    ("mp_identifying_characteristics", .str ""),
    ("circumstances_behind_dissapearance", .str ""),
    ("missing_from", .str ""), ("missing_date", .null),
    ("found", .boolean false), ("alert_type", .str ""),
    ("po_state", .str ""), ("po_post_url", .str "u1"),
    ("po_post_publication_date", .null), ("po_poster_url", .str "u2"),
    ("is_multiple", .boolean false), ("updated_at", .null),
    ("created_at", .null)]

/-- A world whose every page is a 200, valid-JSON listing containing one
record that lacks the `mp_dob` date key. -/
def dateMissingWorld : World :=
  ⟨fun _ => some ⟨200, some (.obj [("results", .arr [mppObjNoDob]),
    ("next", .null), ("previous", .null), ("count", .num 1)])⟩⟩

/-- A world whose every page is a 200, valid-JSON listing body that lacks the
`count` key. -/
def pageMissingWorld : World :=
  ⟨fun _ => some ⟨200, some (.obj [("results", .arr []),
    ("next", .null), ("previous", .null)])⟩⟩

/-! Basic lemmas about the file-set operations and `splitext`. -/

lemma fsGet_fsDel_ne : ∀ (fs : FS) {n m : String}, m ≠ n →
    fsGet (fsDel fs n) m = fsGet fs m
  | [], _, _, _ => rfl
  | (k, v) :: rest, n, m, h => by
    by_cases hk : k = n
    · subst hk
      have hkm : k ≠ m := fun e => h e.symm
      simp [fsDel, fsGet, hkm, fsGet_fsDel_ne rest h]
    · simp [fsDel, fsGet, hk, fsGet_fsDel_ne rest h]

lemma fsGet_fsSet_self (fs : FS) (n : String) (c : FContent) :
    fsGet (fsSet fs n c) n = some c := by
  simp [fsSet, fsGet]

lemma fsGet_fsSet_ne (fs : FS) {n m : String} (c : FContent) (h : m ≠ n) :
    fsGet (fsSet fs n c) m = fsGet fs m := by
  have hnm : n ≠ m := fun e => h e.symm
  simp [fsSet, fsGet, hnm, fsGet_fsDel_ne fs h]

lemma splitextList_append (p : List Char) :
    (splitextList p).1 ++ (splitextList p).2 = p := by
  unfold splitextList
  dsimp only
  split_ifs <;> simp [List.take_append_drop]

lemma splitext_append (s : String) : (splitext s).1 ++ (splitext s).2 = s := by
  show String.mk ((splitextList s.data).1 ++ (splitextList s.data).2) = s
  rw [splitextList_append]

lemma self_ne_append {f suf : String} (h : 0 < suf.length) : f ≠ f ++ suf := by
  intro he
  have hl := congrArg String.length he
  rw [String.length_append] at hl
  omega

lemma strContains_jpeg_self : strContains "Not a JPEG file" "Not a JPEG file" = true := by
  decide

lemma strContains_png_self : strContains "Not a PNG file" "Not a PNG file" = true := by
  decide

/-- C9: for every file whose extension (in the `os.path.splitext` sense) is
not `.pdf`, `.jpeg` or `.png` — notably `.html` — the compressor is a no-op:
it returns the input filename, leaves the file set and hence the file's bytes
unchanged, and logs nothing; applying it a second time gives the same result,
so it is idempotent on such input. -/
theorem c9_pass_through (env : ToolEnv) (filename : String) (fs : FS)
    (h : (splitext filename).2 ∉ [".pdf", ".jpeg", ".png"]) :
    _compress_file env filename fs = (.ok filename, fs, []) ∧
    _compress_file env filename (_compress_file env filename fs).2.1 =
      (.ok filename, fs, []) := by
  simp only [List.mem_cons, List.not_mem_nil, or_false, not_or] at h
  obtain ⟨h1, h2, h3⟩ := h
  have hmain : _compress_file env filename fs = (.ok filename, fs, []) := by
    unfold _compress_file
    simp [h1, h2, h3]
  exact ⟨hmain, by rw [hmain]; exact hmain⟩

/-- C10: whenever the compressor returns a filename (it can also propagate a
`TimeoutExpired` from the pdf branch), the returned name is the input name or
the input's splitext root with extension `.png` or `.jpeg`, and the extension
changes only through the cross-format fallback path (jpegoptim reporting "not
a JPEG" and pngcrush succeeding, or symmetrically); by `splitext_append` the
input is its root followed by its extension, so directory and root are
preserved and only the extension can change. -/
theorem c10_root_preserved (env : ToolEnv) (filename : String) (fs : FS) :
    ∀ s, (_compress_file env filename fs).1 = .ok s →
      s = filename ∨
      (s = (splitext filename).1 ++ ".png" ∧ (splitext filename).2 = ".jpeg" ∧
        env.jpegoptim = .mismatch ∧ env.pngcrush = .ok) ∨
      (s = (splitext filename).1 ++ ".jpeg" ∧ (splitext filename).2 = ".png" ∧
        env.pngcrush = .mismatch ∧ env.jpegoptim = .ok) := by
  intro s hs
  unfold _compress_file at hs
  by_cases hpdf : (splitext filename).2 = ".pdf"
  · rw [if_pos hpdf] at hs
    cases hgs : env.gs <;> cases hmv : env.mvOk <;>
      simp [compress_pdf, hgs, hmv] at hs <;> simp [hs]
  · rw [if_neg hpdf] at hs
    by_cases hjp : (splitext filename).2 = ".jpeg"
    · rw [if_pos hjp] at hs
      cases hjo : env.jpegoptim
      · simp [compress_jpeg, hjo, hjp] at hs
        simp [hs]
      · cases hpc : env.pngcrush
        · simp [compress_jpeg, compress_png, _change_extension, hjo, hpc, hjp,
            strContains_jpeg_self, fsGet_fsSet_self] at hs
          exact Or.inr (Or.inl ⟨hs.symm, hjp, rfl, rfl⟩)
        · simp [compress_jpeg, compress_png, hjo, hpc, strContains_jpeg_self] at hs
          simp [hs]
        · simp [compress_jpeg, compress_png, hjo, hpc, strContains_jpeg_self] at hs
          simp [hs]
        · simp [compress_jpeg, compress_png, hjo, hpc, strContains_jpeg_self] at hs
          simp [hs]
      · simp [compress_jpeg, hjo] at hs
        simp [hs]
      · simp [compress_jpeg, hjo] at hs
        simp [hs]
    · rw [if_neg hjp] at hs
      by_cases hpn : (splitext filename).2 = ".png"
      · rw [if_pos hpn] at hs
        cases hpc : env.pngcrush
        · simp [compress_png, hpc, hpn] at hs
          simp [hs]
        · cases hjo : env.jpegoptim
          · simp [compress_png, compress_jpeg, _change_extension, hpc, hjo, hpn,
              strContains_png_self, fsGet_fsSet_self] at hs
            exact Or.inr (Or.inr ⟨hs.symm, hpn, rfl, rfl⟩)
          · simp [compress_png, compress_jpeg, hpc, hjo, strContains_png_self] at hs
            simp [hs]
          · simp [compress_png, compress_jpeg, hpc, hjo, strContains_png_self] at hs
            simp [hs]
          · simp [compress_png, compress_jpeg, hpc, hjo, strContains_png_self] at hs
            simp [hs]
        · simp [compress_png, hpc] at hs
          simp [hs]
        · simp [compress_png, hpc] at hs
          simp [hs]
      · rw [if_neg hpn] at hs
        simp at hs
        simp [hs]

/-- C7: on a `.pdf` input, a failure of the external document-compression
transform (gs exiting nonzero, or the follow-up mv exiting nonzero) is
caught inside `_compress_file`: the compressor returns the original
filename, the content stored at the original path is unchanged (only the
separate `.tmp` scratch path may have been touched), and the failure is
surfaced as a log line instead of an exception, so the batch is not
aborted. -/
theorem c7_pdf_failure (env : ToolEnv) (filename : String) (fs : FS)
    (hext : (splitext filename).2 = ".pdf")
    (hfail : env.gs = .fail ∨ (env.gs = .ok ∧ env.mvOk = false)) :
    (_compress_file env filename fs).1 = .ok filename ∧
    fsGet (_compress_file env filename fs).2.1 filename = fsGet fs filename ∧
    (_compress_file env filename fs).2.2 = [.failLog filename] := by
  have hne : filename ≠ filename ++ ".tmp" := self_ne_append (by decide)
  unfold _compress_file
  rw [if_pos hext]
  rcases hfail with hgs | ⟨hgs, hmv⟩
  · simp [compress_pdf, hgs, fsGet_fsSet_ne _ _ hne]
  · simp [compress_pdf, hgs, hmv, fsGet_fsSet_ne _ _ hne]

/-- Witness for `c9_pass_through` at the `.html` file of the claim. -/
theorem c9_pass_through_witness :
    _compress_file allOkTools "a.html" [("a.html", FContent.bytes [1, 2])] =
      (.ok "a.html", [("a.html", FContent.bytes [1, 2])], []) ∧
    _compress_file allOkTools "a.html"
        (_compress_file allOkTools "a.html"
          [("a.html", FContent.bytes [1, 2])]).2.1 =
      (.ok "a.html", [("a.html", FContent.bytes [1, 2])], []) :=
  c9_pass_through allOkTools "a.html" [("a.html", FContent.bytes [1, 2])]
    (by decide)

/-- Witness for `c10_root_preserved` at a fallback input: `b.jpeg` whose
content is a PNG comes back as `b.png`, matching the second disjunct. -/
theorem c10_root_preserved_witness :
    "b.png" = "b.jpeg" ∨
    ("b.png" = (splitext "b.jpeg").1 ++ ".png" ∧ (splitext "b.jpeg").2 = ".jpeg" ∧
      pngInside.jpegoptim = .mismatch ∧ pngInside.pngcrush = .ok) ∨
    ("b.png" = (splitext "b.jpeg").1 ++ ".jpeg" ∧ (splitext "b.jpeg").2 = ".png" ∧
      pngInside.pngcrush = .mismatch ∧ pngInside.jpegoptim = .ok) :=
  c10_root_preserved pngInside "b.jpeg" [("b.jpeg", FContent.bytes [9])] "b.png"
    rfl

/-- Witness for `c7_pdf_failure`: gs fails on `a.pdf`, the file keeps its
bytes and its name and the failure is logged. -/
theorem c7_pdf_failure_witness :
    (_compress_file gsFails "a.pdf" [("a.pdf", FContent.bytes [1, 2, 3])]).1 =
      .ok "a.pdf" ∧
    fsGet (_compress_file gsFails "a.pdf"
        [("a.pdf", FContent.bytes [1, 2, 3])]).2.1 "a.pdf" =
      fsGet [("a.pdf", FContent.bytes [1, 2, 3])] "a.pdf" ∧
    (_compress_file gsFails "a.pdf"
        [("a.pdf", FContent.bytes [1, 2, 3])]).2.2 = [.failLog "a.pdf"] :=
  c7_pdf_failure gsFails "a.pdf" [("a.pdf", FContent.bytes [1, 2, 3])]
    (by decide) (Or.inl rfl)

/-- C1 as stated is refuted by the file named `.jpeg`: its name ends in
`.jpeg` and its content is a PNG (jpegoptim would report "Not a JPEG file"
and pngcrush would succeed), yet `os.path.splitext` gives the bare dotfile an
empty extension, so `_compress_file` passes it through unchanged — no format
mismatch is reported, no PNG retry happens and the name is not changed to a
`.png` name. -/
theorem c1_counterexample :
    _compress_file pngInside ".jpeg" [(".jpeg", FContent.bytes [9])] =
      (.ok ".jpeg", [(".jpeg", FContent.bytes [9])], []) := rfl

/-- C1 (amended): for every file whose splitext extension is `.jpeg` (a name
that merely ends in the characters ".jpeg" without a root, such as the bare
dotfile `.jpeg`, is instead passed through untouched, see
`c1_counterexample`): if jpegoptim reports the wrong-format signal and
pngcrush then succeeds, the compressor returns the splitext root with
extension `.png`, the bytes stored at that name are pngcrush's output and
the rename is logged; if the pngcrush fallback fails in any way, the
original file is returned unmodified under its original name; symmetrically
for `.png` inputs with the two tools swapped. -/
theorem c1_cross_format (env : ToolEnv) (filename : String) (fs : FS) :
    ((splitext filename).2 = ".jpeg" → env.jpegoptim = .mismatch →
      (env.pngcrush = .ok →
        (_compress_file env filename fs).1 =
          .ok ((splitext filename).1 ++ ".png") ∧
        fsGet (_compress_file env filename fs).2.1
            ((splitext filename).1 ++ ".png") =
          some (.bytes env.pngcrushContent) ∧
        (_compress_file env filename fs).2.2 =
          [.fallbackInfo filename ((splitext filename).1 ++ ".png")]) ∧
      (env.pngcrush ≠ .ok →
        _compress_file env filename fs = (.ok filename, fs, [.failLog filename]))) ∧
    ((splitext filename).2 = ".png" → env.pngcrush = .mismatch →
      (env.jpegoptim = .ok →
        (_compress_file env filename fs).1 =
          .ok ((splitext filename).1 ++ ".jpeg") ∧
        fsGet (_compress_file env filename fs).2.1
            ((splitext filename).1 ++ ".jpeg") =
          some (.bytes env.jpegoptimContent) ∧
        (_compress_file env filename fs).2.2 =
          [.fallbackInfo filename ((splitext filename).1 ++ ".jpeg")]) ∧
      (env.jpegoptim ≠ .ok →
        _compress_file env filename fs = (.ok filename, fs, [.failLog filename]))) := by
  constructor
  · intro hjp hjo
    have hnpdf : (splitext filename).2 ≠ ".pdf" := by rw [hjp]; decide
    constructor
    · intro hpc
      unfold _compress_file
      rw [if_neg hnpdf, if_pos hjp]
      simp [compress_jpeg, compress_png, _change_extension, hjo, hpc, hjp,
        strContains_jpeg_self, fsGet_fsSet_self]
    · intro hpc
      unfold _compress_file
      rw [if_neg hnpdf, if_pos hjp]
      cases hp2 : env.pngcrush
      · exact absurd hp2 hpc
      · simp [compress_jpeg, compress_png, hjo, hp2, strContains_jpeg_self]
      · simp [compress_jpeg, compress_png, hjo, hp2, strContains_jpeg_self]
      · simp [compress_jpeg, compress_png, hjo, hp2, strContains_jpeg_self]
  · intro hpn hpc
    have hnpdf : (splitext filename).2 ≠ ".pdf" := by rw [hpn]; decide
    have hnjp : (splitext filename).2 ≠ ".jpeg" := by rw [hpn]; decide
    constructor
    · intro hjo
      unfold _compress_file
      rw [if_neg hnpdf, if_neg hnjp, if_pos hpn]
      simp [compress_png, compress_jpeg, _change_extension, hpc, hjo, hpn,
        strContains_png_self, fsGet_fsSet_self]
    · intro hjo
      unfold _compress_file
      rw [if_neg hnpdf, if_neg hnjp, if_pos hpn]
      cases hj2 : env.jpegoptim
      · exact absurd hj2 hjo
      · simp [compress_png, compress_jpeg, hpc, hj2, strContains_png_self]
      · simp [compress_png, compress_jpeg, hpc, hj2, strContains_png_self]
      · simp [compress_png, compress_jpeg, hpc, hj2, strContains_png_self]

/-- Witness for `c1_cross_format`: `b.jpeg` containing a PNG is renamed to
`b.png` holding pngcrush's output, and the symmetric `b.png` containing a
JPEG is renamed to `b.jpeg`. -/
theorem c1_cross_format_witness :
    ((_compress_file pngInside "b.jpeg" [("b.jpeg", FContent.bytes [9])]).1 =
        .ok "b.png" ∧
      fsGet (_compress_file pngInside "b.jpeg"
          [("b.jpeg", FContent.bytes [9])]).2.1 "b.png" =
        some (.bytes [6])) ∧
    ((_compress_file jpegInside "b.png" [("b.png", FContent.bytes [9])]).1 =
        .ok "b.jpeg" ∧
      fsGet (_compress_file jpegInside "b.png"
          [("b.png", FContent.bytes [9])]).2.1 "b.jpeg" =
        some (.bytes [5])) := by
  have h1 := ((c1_cross_format pngInside "b.jpeg"
      [("b.jpeg", FContent.bytes [9])]).1 (by decide) rfl).1 rfl
  have h2 := ((c1_cross_format jpegInside "b.png"
      [("b.png", FContent.bytes [9])]).2 (by decide) rfl).1 rfl
  exact ⟨⟨h1.1, h1.2.1⟩, ⟨h2.1, h2.2.1⟩⟩

/-- C8: if the first fetch fails with a certificate-validation error, exactly
one retry is performed, with certificate verification disabled, and the
downgrade warning is logged before it (never silent); a first failure of any
other kind propagates with no retry and no warning; and when the attempt that
yields the response (the first, or the downgraded retry after an SSL
failure) carries a 4xx or 5xx status — the statuses `raise_for_status`
treats as errors — the call fails with `HTTPError`, the spec's
TransportError. -/
theorem c8_ssl_retry (net : Net) (url filename : String) (fs : FS) :
    (net.get url true = .error .ssl →
      (download_url net url filename fs).gets = [true, false] ∧
      (download_url net url filename fs).sslWarned = true) ∧
    (net.get url true = .error .other →
      download_url net url filename fs =
        ⟨.error (.netErr .other), fs, [true], false⟩) ∧
    (∀ res, net.get url true = .ok res → 400 ≤ res.status → res.status < 600 →
      download_url net url filename fs =
        ⟨.error (.httpError res.status), fs, [true], false⟩) ∧
    (∀ res, net.get url true = .error .ssl → net.get url false = .ok res →
      400 ≤ res.status → res.status < 600 →
      download_url net url filename fs =
        ⟨.error (.httpError res.status), fs, [true, false], true⟩) := by
  refine ⟨fun h1 => ?_, fun h1 => ?_, fun res h1 h4 h6 => ?_,
    fun res h1 h2 h4 h6 => ?_⟩
  · unfold download_url
    rw [h1]
    cases h2 : net.get url false
    · simp
    · simp
  · unfold download_url
    rw [h1]
  · unfold download_url
    rw [h1]
    simp [save_response, h4, h6]
  · unfold download_url
    rw [h1, h2]
    simp [save_response, h4, h6]

/-- Witness for `c8_ssl_retry`: on `sslNet` the download performs exactly the
verified attempt and one unverified retry, and logs the downgrade. -/
theorem c8_ssl_retry_witness :
    (download_url sslNet "u" "f" []).gets = [true, false] ∧
    (download_url sslNet "u" "f" []).sslWarned = true :=
  (c8_ssl_retry sslNet "u" "f" []).1 rfl

/-- C4 as stated is refuted on HTML text: a response declaring the canonical
HTML content type `text/html` is not saved as `filename ++ ".html"` — the
allow-list only contains the exact string "text/html; charset=utf-8", so the
download fails with the unsupported-content-type `ValueError` and writes
nothing. -/
theorem c4_counterexample :
    download_url plainHtmlNet "u" "f" [] =
      ⟨.error (.valueError "text/html"), [], [true], false⟩ := rfl

/-- C4 (amended): when the fetch succeeds and the status passes
`raise_for_status`, the extension is determined solely by the normalised
declared content type: `application/pdf`, `image/jpeg` and `image/png`
produce the base name with extension `.pdf`, `.jpeg` and `.png` holding the
raw body; HTML text is accepted only in the exact normalised form
`text/html; charset=utf-8` and produces extension `.html` holding the
decoded text (plain `text/html` is rejected, see `c4_counterexample`); every
other declared type — e.g. `text/plain`, or an absent header — fails with
the `ValueError` modelling UnsupportedContentTypeError, and no file is
written. -/
theorem c4_extension_from_content_type (net : Net) (url filename : String)
    (fs : FS) (res : DlResp) (hok : net.get url true = .ok res)
    (hst : ¬(400 ≤ res.status ∧ res.status < 600)) :
    (normalizeCT res.contentType = "application/pdf" →
      download_url net url filename fs =
        ⟨.ok (filename ++ ".pdf"),
          fsSet fs (filename ++ ".pdf") (.bytes res.rawBody), [true], false⟩) ∧
    (normalizeCT res.contentType = "image/jpeg" →
      download_url net url filename fs =
        ⟨.ok (filename ++ ".jpeg"),
          fsSet fs (filename ++ ".jpeg") (.bytes res.rawBody), [true], false⟩) ∧
    (normalizeCT res.contentType = "image/png" →
      download_url net url filename fs =
        ⟨.ok (filename ++ ".png"),
          fsSet fs (filename ++ ".png") (.bytes res.rawBody), [true], false⟩) ∧
    (normalizeCT res.contentType = "text/html; charset=utf-8" →
      download_url net url filename fs =
        ⟨.ok (filename ++ ".html"),
          fsSet fs (filename ++ ".html") (.text res.textBody), [true], false⟩) ∧
    (normalizeCT res.contentType ∉
        ["application/pdf", "image/jpeg", "image/png", "text/html; charset=utf-8"] →
      download_url net url filename fs =
        ⟨.error (.valueError (normalizeCT res.contentType)), fs, [true], false⟩) := by
  have hbase : ∀ ext : String,
      filename ++ "." ++ ext = filename ++ ("." ++ ext) := by
    intro ext
    rw [String.append_assoc]
  refine ⟨fun hct => ?_, fun hct => ?_, fun hct => ?_, fun hct => ?_,
    fun hct => ?_⟩
  · unfold download_url
    rw [hok]
    simp [save_response, hst, hct, _save_file, hbase]
    have e : (pySplit "application/pdf" '/')[1]?.getD "" = "pdf" := rfl
    rw [e]
    exact ⟨rfl, rfl⟩
  · unfold download_url
    rw [hok]
    simp [save_response, hst, hct, _save_file, hbase]
    have e : (pySplit "image/jpeg" '/')[1]?.getD "" = "jpeg" := rfl
    rw [e]
    exact ⟨rfl, rfl⟩
  · unfold download_url
    rw [hok]
    simp [save_response, hst, hct, _save_file, hbase]
    have e : (pySplit "image/png" '/')[1]?.getD "" = "png" := rfl
    rw [e]
    exact ⟨rfl, rfl⟩
  · unfold download_url
    rw [hok]
    simp [save_response, hst, hct, _save_text_file]
  · simp only [List.mem_cons, List.not_mem_nil, or_false, not_or] at hct
    obtain ⟨h1, h2, h3, h4⟩ := hct
    unfold download_url
    rw [hok]
    simp [save_response, hst, h1, h2, h3, h4]

/-- Witness for `c4_extension_from_content_type`: on `pngNet` the download
returns the base name with extension `.png` and writes the body there. -/
theorem c4_extension_witness :
    download_url pngNet "u" "f" [] =
      ⟨.ok ("f" ++ ".png"), fsSet [] ("f" ++ ".png") (.bytes [7, 8]),
        [true], false⟩ :=
  ((c4_extension_from_content_type pngNet "u" "f" [] ⟨200, some "image/png", [7, 8], ""⟩
      rfl (by decide)).2.2.1 rfl)

/-- Shape of a `_process_url` trace: either the download failed and the asset
stops there, or all four steps were attempted in order. -/
lemma _process_url_trace (p : PipeEnv) (url filename : String) (fs : FS) :
    (_process_url p url filename fs).1 = [(.download, .failure)] ∨
    ∃ o2 o3 o4, (_process_url p url filename fs).1 =
      [(.download, .success), (.compress, o2), (.upload, o3), (.cleanup, o4)] := by
  unfold _process_url
  cases h : (download_url p.net url filename fs).result
  · simp [h]
  · simp [h]

/-- Every `_process_url` call attempts the download. -/
lemma _process_url_download_attempted (p : PipeEnv) (url filename : String)
    (fs : FS) :
    Step.download ∈ ((_process_url p url filename fs).1).map Prod.fst := by
  rcases _process_url_trace p url filename fs with h | ⟨o2, o3, o4, h⟩ <;> simp [h]

/-- C6: whenever an asset reaches the upload step (its download succeeded),
the `_process_url` trace is exactly download, compress, upload, cleanup in
that order — in particular the deletion of the local file is attempted right
after the upload attempt whatever the upload outcome `o3`: an upload failure
is caught and logged rather than propagated and does not prevent the cleanup
step, and a cleanup failure only shows up as the caught outcome `o4`,
`_process_url` always returning a trace instead of raising. -/
theorem c6_cleanup_follows_upload (p : PipeEnv) (url filename : String)
    (fs : FS)
    (h : Step.upload ∈ ((_process_url p url filename fs).1).map Prod.fst) :
    ∃ o2 o3 o4, (_process_url p url filename fs).1 =
      [(.download, .success), (.compress, o2), (.upload, o3), (.cleanup, o4)] := by
  rcases _process_url_trace p url filename fs with h1 | h1
  · rw [h1] at h
    simp at h
  · exact h1

lemma progList_getLast : ∀ (n i total : Nat),
    (progList total i (n + 1)).getLast? = some (i + n + 1, total)
  | 0, _, _ => rfl
  | n + 1, i, total => by
    have ih := progList_getLast n (i + 1) total
    have harith : i + 1 + n + 1 = i + (n + 1) + 1 := by omega
    rw [harith] at ih
    calc (progList total i (n + 1 + 1)).getLast?
        = ((i + 1, total) :: progList total (i + 1) (n + 1)).getLast? := rfl
      _ = (progList total (i + 1) (n + 1)).getLast? := by
          rw [show progList total (i + 1) (n + 1) =
            (i + 2, total) :: progList total (i + 2) n from rfl]
          exact List.getLast?_cons_cons
      _ = some (i + (n + 1) + 1, total) := ih

lemma backup_mpps_loop_prog (p : PipeEnv) (t : String) :
    ∀ (ms : List MppR) (i total : Nat) (fs : FS),
      ((backup_mpps_loop p t ms i total fs).1).map RecordOut.prog =
        progList total i ms.length
  | [], _, _, _ => rfl
  | _ :: rest, i, total, fs => by
    simp only [backup_mpps_loop, List.map_cons, List.length_cons, progList]
    exact congrArg _ (backup_mpps_loop_prog p t rest (i + 1) total _)

lemma backup_mpps_loop_attempted (p : PipeEnv) (t : String) :
    ∀ (ms : List MppR) (i total : Nat) (fs : FS),
      ∀ r ∈ (backup_mpps_loop p t ms i total fs).1,
        Step.download ∈ r.post.map Prod.fst ∧
        Step.download ∈ r.poster.map Prod.fst
  | [], _, _, _ => by intro r hr; simp [backup_mpps_loop] at hr
  | m :: rest, i, total, fs => by
    intro r hr
    simp only [backup_mpps_loop, List.mem_cons] at hr
    rcases hr with hr | hr
    · subst hr
      exact ⟨_process_url_download_attempted p _ _ _,
        _process_url_download_attempted p _ _ _⟩
    · exact backup_mpps_loop_attempted p t rest (i + 1) total _ r hr

/-- C2: per-asset failures never leak across assets or records. For every
environment and record list: the orchestrator emits exactly the progress
lines `1/n`, `2/n`, …, `n/n` (one after each record, so when records exist
the counter ends at `n/n`); every record in the output had the download of
both of its assets attempted — whatever failed elsewhere; and a download
failure short-circuits exactly the remaining steps of that one asset, its
`_process_url` trace stopping at the failed download. -/
theorem c2_per_record_isolation (p : PipeEnv) (tmpdirname : String)
    (mpps : List MppR) (fs : FS) :
    (((backup_mpps p tmpdirname mpps fs).1).map RecordOut.prog =
      progList mpps.length 0 mpps.length) ∧
    (mpps ≠ [] →
      (((backup_mpps p tmpdirname mpps fs).1).map RecordOut.prog).getLast? =
        some (mpps.length, mpps.length)) ∧
    (∀ r ∈ (backup_mpps p tmpdirname mpps fs).1,
      Step.download ∈ r.post.map Prod.fst ∧
      Step.download ∈ r.poster.map Prod.fst) ∧
    (∀ url fn fs' e, (download_url p.net url fn fs').result = .error e →
      (_process_url p url fn fs').1 = [(.download, .failure)]) := by
  refine ⟨backup_mpps_loop_prog p tmpdirname mpps 0 mpps.length fs,
    fun hne => ?_,
    backup_mpps_loop_attempted p tmpdirname mpps 0 mpps.length fs,
    fun url fn fs' e he => ?_⟩
  · unfold backup_mpps
    rw [backup_mpps_loop_prog p tmpdirname mpps 0 mpps.length fs]
    cases hm : mpps with
    | nil => exact absurd hm hne
    | cons m rest =>
      have h := progList_getLast rest.length 0 (rest.length + 1)
      simpa using h
  · unfold _process_url
    simp [he]

/-- Witness for `c6_cleanup_follows_upload`: with every upload failing, the
cleanup step is still attempted right after the upload attempt. -/
theorem c6_cleanup_follows_upload_witness :
    ∃ o2 o3 o4, (_process_url upFailEnv "u" "f" []).1 =
      [(.download, .success), (.compress, o2), (.upload, o3), (.cleanup, o4)] :=
  c6_cleanup_follows_upload upFailEnv "u" "f" [] (by decide)

/-- Witness for `c2_per_record_isolation`: with three records whose first
record's poster download fails, the progress counter still ends at 3/3, the
third record still attempts its downloads, and the failing asset's trace
stops at the failed download. -/
theorem c2_per_record_isolation_witness :
    (((backup_mpps pW "tmp" recsW []).1).map RecordOut.prog).getLast? =
      some (3, 3) ∧
    Step.download ∈
      (((backup_mpps pW "tmp" recsW []).1).getD 2 ⟨[], [], (0, 0)⟩).post.map
        Prod.fst ∧
    (_process_url pW "p1b" "tmp/r1.po_poster_url" []).1 =
      [(.download, .failure)] := by
  have h := c2_per_record_isolation pW "tmp" recsW []
  exact ⟨h.2.1 (by decide), (h.2.2.1 _ (by decide)).1,
    h.2.2.2 "p1b" "tmp/r1.po_poster_url" [] (.netErr .other) rfl⟩

lemma retrieve_while_chain (w : World) (lib : DateLib) {url : String}
    {pages : List (String × List Mpp)} (hc : Chain w lib url pages) :
    ∀ fuel, pages.length ≤ fuel →
      retrieve_while w lib fuel (.str url) =
        some (pages.map Prod.fst, .ok (pages.flatMap Prod.snd)) := by
  induction hc with
  | last h =>
    intro fuel hf
    obtain ⟨prev, cnt, hr⟩ := h
    cases fuel with
    | zero => simp at hf
    | succ f => simp [retrieve_while, hr, Except.map]
  | cons h hrest ih =>
    intro fuel hf
    obtain ⟨prev, cnt, hr⟩ := h
    cases fuel with
    | zero => simp at hf
    | succ f =>
      have hw := ih f (by simp at hf; omega)
      simp [retrieve_while, hr, hw, Except.map]

lemma retrieve_from_chain (w : World) (lib : DateLib) {url : String}
    {pages : List (String × List Mpp)} (fuel : Nat)
    (hc : Chain w lib url pages) (hf : pages.length ≤ fuel + 1) :
    retrieve_from w lib url fuel =
      some (pages.map Prod.fst, .ok (pages.flatMap Prod.snd)) := by
  cases hc with
  | last h =>
    obtain ⟨prev, cnt, hr⟩ := h
    simp [retrieve_from, hr, retrieve_while, Except.map]
  | cons h hrest =>
    obtain ⟨prev, cnt, hr⟩ := h
    have hw := retrieve_while_chain w lib hrest fuel (by simp at hf; omega)
    simp [retrieve_from, hr, hw, Except.map]

/-- C3: for every linear pagination chain — each page but the last carrying a
string `next` locator, the last page a null `next` — starting at the listing
URL built from the date window, the fetcher requests exactly the chain's
URLs in order (so no page beyond the null-`next` page is requested), returns
the concatenation of all pages' results in page order, and the returned
sequence's length is the sum of the pages' result lengths. -/
theorem c3_pagination (w : World) (lib : DateLib)
    (updated_at_after updated_at_before : String) (endpoint_url : Option String)
    (pages : List (String × List Mpp)) (fuel : Nat)
    (hc : Chain w lib
      (listing_url endpoint_url updated_at_after updated_at_before) pages)
    (hf : pages.length ≤ fuel + 1) :
    retrieve_mpps_by_updated_at_date w lib updated_at_after updated_at_before
        endpoint_url fuel =
      some (pages.map Prod.fst, .ok (pages.flatMap Prod.snd)) ∧
    (pages.flatMap Prod.snd).length = (pages.map (fun pg => pg.2.length)).sum := by
  refine ⟨retrieve_from_chain w lib fuel hc hf, ?_⟩
  rw [List.length_flatMap]
  rfl

/-- Witness for `c3_pagination`: on `twoPageWorld` the fetcher requests
exactly the two pages and returns the three records, of length 2 + 1. -/
theorem c3_pagination_witness :
    retrieve_mpps_by_updated_at_date twoPageWorld anyDates "d1" "d2"
        (some "e") 1 =
      some ([listing_url (some "e") "d1" "d2", "page2"],
        .ok [mppRec "a", mppRec "b", mppRec "c"]) ∧
    ([mppRec "a", mppRec "b", mppRec "c"] : List Mpp).length =
      ([([mppRec "a", mppRec "b"] : List Mpp).length,
        ([mppRec "c"] : List Mpp).length] : List Nat).sum := by
  have h := c3_pagination twoPageWorld anyDates "d1" "d2" (some "e")
    [(listing_url (some "e") "d1" "d2", [mppRec "a", mppRec "b"]),
      ("page2", [mppRec "c"])] 1
    (Chain.cons ⟨.null, .num 3, rfl⟩ (Chain.last ⟨.str "x", .num 3, rfl⟩))
    (by simp)
  exact ⟨h.1, h.2⟩

/-- Every URL in a terminated pagination trace either answered successfully,
or is the last requested URL, carries the loop's error, and every URL before
it answered successfully. -/
lemma retrieve_while_bad (w : World) (lib : DateLib) :
    ∀ (fuel : Nat) (nxt : JVal) (urls : List String)
      (r : Except FetchErr (List Mpp)),
      retrieve_while w lib fuel nxt = some (urls, r) →
      ∀ u ∈ urls,
        (∃ b, _retrieve_mpps_by_updated_at_date w lib u = .ok b) ∨
        (∃ e, _retrieve_mpps_by_updated_at_date w lib u = .error e ∧
          r = .error e ∧ ∃ us, urls = us ++ [u] ∧
            ∀ x ∈ us, ∃ b, _retrieve_mpps_by_updated_at_date w lib x = .ok b) := by
  intro fuel
  induction fuel with
  | zero =>
    intro nxt urls r h u hu
    cases nxt <;> simp [retrieve_while] at h <;>
      (obtain ⟨h1, h2⟩ := h
       subst h1
       simp at hu)
  | succ f ih =>
    intro nxt urls r h u hu
    cases nxt with
    | str s =>
      simp only [retrieve_while] at h
      cases hr : _retrieve_mpps_by_updated_at_date w lib s with
      | error e =>
        rw [hr] at h
        simp at h
        obtain ⟨h1, h2⟩ := h
        subst h1
        subst h2
        have hus : u = s := by simpa using hu
        subst hus
        exact Or.inr ⟨e, hr, rfl, [], rfl, by simp⟩
      | ok body =>
        rw [hr] at h
        dsimp only at h
        cases hw : retrieve_while w lib f body.next with
        | none => rw [hw] at h; simp at h
        | some p =>
          obtain ⟨us2, r2⟩ := p
          rw [hw] at h
          simp at h
          obtain ⟨h1, h2⟩ := h
          subst h1
          rcases List.mem_cons.mp hu with hus | hmem
          · subst hus
            exact Or.inl ⟨body, hr⟩
          · rcases ih body.next us2 r2 hw u hmem with hgood | hbad
            · exact Or.inl hgood
            · obtain ⟨e, he, hre, us3, hus3, hgood3⟩ := hbad
              refine Or.inr ⟨e, he, ?_, s :: us3, ?_, ?_⟩
              · rw [← h2, hre]
                rfl
              · rw [hus3, List.cons_append]
              · intro x hx
                rcases List.mem_cons.mp hx with hxs | hx3
                · subst hxs
                  exact ⟨body, hr⟩
                · exact hgood3 x hx3
    | null =>
      simp [retrieve_while] at h
      obtain ⟨h1, h2⟩ := h
      subst h1
      simp at hu
    | num n =>
      simp [retrieve_while] at h
      obtain ⟨h1, h2⟩ := h
      subst h1
      simp at hu
    | boolean b =>
      simp [retrieve_while] at h
      obtain ⟨h1, h2⟩ := h
      subst h1
      simp at hu
    | arr xs =>
      simp [retrieve_while] at h
      obtain ⟨h1, h2⟩ := h
      subst h1
      simp at hu
    | obj d =>
      simp [retrieve_while] at h
      obtain ⟨h1, h2⟩ := h
      subst h1
      simp at hu

/-- The decomposition of `retrieve_while_bad`, lifted to a whole fetch
starting at `url`. -/
lemma retrieve_from_bad (w : World) (lib : DateLib) (url : String)
    (fuel : Nat) (urls : List String) (r : Except FetchErr (List Mpp))
    (h : retrieve_from w lib url fuel = some (urls, r)) :
    ∀ u ∈ urls,
      (∃ b, _retrieve_mpps_by_updated_at_date w lib u = .ok b) ∨
      (∃ e, _retrieve_mpps_by_updated_at_date w lib u = .error e ∧
        r = .error e ∧ ∃ us, urls = us ++ [u] ∧
          ∀ x ∈ us, ∃ b, _retrieve_mpps_by_updated_at_date w lib x = .ok b) := by
  intro u hu
  unfold retrieve_from at h
  cases hr : _retrieve_mpps_by_updated_at_date w lib url with
  | error e =>
    rw [hr] at h
    simp at h
    obtain ⟨h1, h2⟩ := h
    subst h1
    subst h2
    have hus : u = url := by simpa using hu
    subst hus
    exact Or.inr ⟨e, hr, rfl, [], rfl, by simp⟩
  | ok body =>
    rw [hr] at h
    dsimp only at h
    cases hw : retrieve_while w lib fuel body.next with
    | none => rw [hw] at h; simp at h
    | some p =>
      obtain ⟨us2, r2⟩ := p
      rw [hw] at h
      simp at h
      obtain ⟨h1, h2⟩ := h
      subst h1
      rcases List.mem_cons.mp hu with hus | hmem
      · subst hus
        exact Or.inl ⟨body, hr⟩
      · rcases retrieve_while_bad w lib fuel body.next us2 r2 hw u hmem with
          hgood | hbad
        · exact Or.inl hgood
        · obtain ⟨e, he, hre, us3, hus3, hgood3⟩ := hbad
          refine Or.inr ⟨e, he, ?_, url :: us3, ?_, ?_⟩
          · rw [← h2, hre]
            rfl
          · rw [hus3, List.cons_append]
          · intro x hx
            rcases List.mem_cons.mp hx with hxs | hx3
            · subst hxs
              exact ⟨body, hr⟩
            · exact hgood3 x hx3

/-- A record object missing one of the five date keys fails to parse with the
API exception: the missing key is a `KeyError` inside the try block of
`Mpp.from_api_dict`, re-raised as `ExtraviadosMxApiException`. -/
lemma from_api_dict_missing_date (lib : DateLib) (d : List (String × JVal))
    (h : jlookup d "mp_dob" = none ∨ jlookup d "missing_date" = none ∨
      jlookup d "po_post_publication_date" = none ∨
      jlookup d "updated_at" = none ∨ jlookup d "created_at" = none) :
    Mpp.from_api_dict lib (.obj d) = .error .apiExc := by
  unfold Mpp.from_api_dict
  cases h1 : jlookup d "mp_dob" <;> cases h2 : jlookup d "missing_date" <;>
    cases h3 : jlookup d "po_post_publication_date" <;>
    cases h4 : jlookup d "updated_at" <;> cases h5 : jlookup d "created_at" <;>
    simp_all

/-- A listing body missing one of its four keys fails to parse with the API
exception: the missing key is a `KeyError` inside the try block of
`RetrieveMppsApiBody.from_api_dict`. -/
lemma body_from_api_dict_missing_key (lib : DateLib) (d : List (String × JVal))
    (h : jlookup d "results" = none ∨ jlookup d "next" = none ∨
      jlookup d "previous" = none ∨ jlookup d "count" = none) :
    RetrieveMppsApiBody.from_api_dict lib (.obj d) = .error .apiExc := by
  unfold RetrieveMppsApiBody.from_api_dict
  cases h1 : jlookup d "results" <;> cases h2 : jlookup d "next" <;>
    cases h3 : jlookup d "previous" <;> cases h4 : jlookup d "count" <;>
    simp_all

/-- The list comprehension parses records left to right: when every record
before `x` parses and `x` fails, the whole traversal fails with the error of
`x`. -/
lemma mapM_append_error {α β : Type} (f : α → Except FetchErr β) :
    ∀ (pre : List α) (x : α) (post : List α) (e0 : FetchErr),
      (∀ y ∈ pre, ∃ b, f y = .ok b) → f x = .error e0 →
      (pre ++ x :: post).mapM f = .error e0
  | [], x, post, e0, _, hx => by
    simp only [List.nil_append, List.mapM_cons, hx]
    rfl
  | y :: pre, x, post, e0, hpre, hx => by
    obtain ⟨b, hb⟩ := hpre y (List.mem_cons_self y pre)
    have ih := mapM_append_error f pre x post e0
      (fun z hz => hpre z (List.mem_cons_of_mem y hz)) hx
    simp only [List.cons_append, List.mapM_cons, hb, ih]
    rfl

/-- C5 (amended): when a fetch terminates and one of the requested pages
failed — non-200 status, undecodable body, or unparseable record set — the
whole fetch returns that error and no partial record list; the request trace
ends at the failing URL, every earlier request having succeeded, and the
failing URL was requested exactly once (no retry). The failure is the API
exception, the spec's DataSourceError, when the page has a non-200 status,
an undecodable body, a body missing one of the four page keys, or a record
missing one of the five date keys as its first failing record — but a record
missing any other required field aborts with the `TypeError` of
`cls(**api_dict)` instead, see `c5_counterexample`. -/
theorem c5_fetch_abort (w : World) (lib : DateLib)
    (updated_at_after updated_at_before : String) (endpoint_url : Option String)
    (fuel : Nat) (urls : List String) (r : Except FetchErr (List Mpp))
    (hrun : retrieve_mpps_by_updated_at_date w lib updated_at_after
      updated_at_before endpoint_url fuel = some (urls, r))
    (u : String) (e : FetchErr) (hu : u ∈ urls)
    (hbad : _retrieve_mpps_by_updated_at_date w lib u = .error e) :
    r = .error e ∧
    (∀ recs, r ≠ .ok recs) ∧
    urls.count u = 1 ∧
    (∃ us, urls = us ++ [u] ∧
      ∀ x ∈ us, ∃ b, _retrieve_mpps_by_updated_at_date w lib x = .ok b) ∧
    (∀ resp, w.resp u = some resp → resp.status ≠ 200 → e = .apiExc) ∧
    (∀ resp, w.resp u = some resp → resp.status = 200 → resp.body = none →
      e = .apiExc) ∧
    (∀ resp d, w.resp u = some resp → resp.status = 200 →
      resp.body = some (.obj d) →
      (jlookup d "results" = none ∨ jlookup d "next" = none ∨
        jlookup d "previous" = none ∨ jlookup d "count" = none) →
      e = .apiExc) ∧
    (∀ resp d xs nv pv cv rd pre post, w.resp u = some resp →
      resp.status = 200 → resp.body = some (.obj d) →
      jlookup d "results" = some (.arr xs) → jlookup d "next" = some nv →
      jlookup d "previous" = some pv → jlookup d "count" = some cv →
      xs = pre ++ JVal.obj rd :: post →
      (∀ y ∈ pre, ∃ b, Mpp.from_api_dict lib y = .ok b) →
      (jlookup rd "mp_dob" = none ∨ jlookup rd "missing_date" = none ∨
        jlookup rd "po_post_publication_date" = none ∨
        jlookup rd "updated_at" = none ∨ jlookup rd "created_at" = none) →
      e = .apiExc) := by
  rcases retrieve_from_bad w lib _ fuel urls r hrun u hu with ⟨b, hb⟩ | hbadd
  · rw [hb] at hbad
    simp at hbad
  · obtain ⟨e2, he2, hre, us, hus, hgood⟩ := hbadd
    have hee : e2 = e := by
      rw [he2] at hbad
      injection hbad
    subst hee
    have hnotin : u ∉ us := by
      intro hin
      obtain ⟨b, hb⟩ := hgood u hin
      rw [hb] at hbad
      simp at hbad
    refine ⟨hre, ?_, ?_, ⟨us, hus, hgood⟩, ?_, ?_, ?_, ?_⟩
    · intro recs hrecs
      rw [hre] at hrecs
      simp at hrecs
    · rw [hus, List.count_append]
      rw [List.count_eq_zero.mpr hnotin]
      simp
    · intro resp hresp hstatus
      unfold _retrieve_mpps_by_updated_at_date at hbad
      rw [hresp] at hbad
      dsimp only at hbad
      rw [if_pos hstatus] at hbad
      injection hbad with hb2
      exact hb2.symm
    · intro resp hresp hstatus hbody
      unfold _retrieve_mpps_by_updated_at_date at hbad
      rw [hresp] at hbad
      dsimp only at hbad
      rw [if_neg (by simp [hstatus]), hbody] at hbad
      dsimp only at hbad
      injection hbad with hb2
      exact hb2.symm
    · intro resp d hresp hstatus hbody hkeys
      unfold _retrieve_mpps_by_updated_at_date at hbad
      rw [hresp] at hbad
      dsimp only at hbad
      rw [if_neg (by simp [hstatus]), hbody] at hbad
      dsimp only at hbad
      rw [body_from_api_dict_missing_key lib d hkeys] at hbad
      injection hbad with hb2
      exact hb2.symm
    · intro resp d xs nv pv cv rd pre post hresp hstatus hbody hres hnext
        hprev hcnt hxs hpre hdk
      unfold _retrieve_mpps_by_updated_at_date at hbad
      rw [hresp] at hbad
      dsimp only at hbad
      rw [if_neg (by simp [hstatus]), hbody] at hbad
      dsimp only at hbad
      unfold RetrieveMppsApiBody.from_api_dict at hbad
      dsimp only at hbad
      rw [hres, hnext, hprev, hcnt] at hbad
      dsimp only at hbad
      have hm : xs.mapM (Mpp.from_api_dict lib) = .error .apiExc := by
        rw [hxs]
        exact mapM_append_error _ pre _ post _ hpre
          (from_api_dict_missing_date lib rd hdk)
      rw [hm] at hbad
      have hb2 : (Except.error FetchErr.apiExc :
          Except FetchErr RetrieveMppsApiBody) = Except.error e2 := hbad
      injection hb2 with hb3
      exact hb3.symm

/-- C5 as stated is refuted on the error type: a page whose record misses the
required `id` field (with all five date keys present) aborts the fetch with
no partial list, but with the `TypeError` raised by `cls(**api_dict)`, not
with the `ExtraviadosMxApiException` that models DataSourceError. -/
theorem c5_counterexample :
    retrieve_mpps_by_updated_at_date badWorld anyDates "d1" "d2" (some "e") 5 =
      some ([listing_url (some "e") "d1" "d2"], .error .typeErr) ∧
    FetchErr.typeErr ≠ FetchErr.apiExc :=
  ⟨rfl, by decide⟩

/-- Witness for `c5_fetch_abort`, applying the theorem to three concrete
worlds: on `badWorld` (a record missing `id`, aborting with `TypeError`) the
failing page is requested exactly once and no partial record list is
returned; on `dateMissingWorld` (a record missing the `mp_dob` date key) and
on `pageMissingWorld` (a body missing `count`) the fetch aborts with the API
exception and no partial record list either — the hypotheses discharge by
evaluating the whole fetch on each world. -/
theorem c5_fetch_abort_witness :
    [listing_url (some "e") "d1" "d2"].count
      (listing_url (some "e") "d1" "d2") = 1 ∧
    (∀ recs, (Except.error FetchErr.typeErr : Except FetchErr (List Mpp)) ≠
      .ok recs) ∧
    (∀ recs, (Except.error FetchErr.apiExc : Except FetchErr (List Mpp)) ≠
      .ok recs) ∧
    (∃ us, [listing_url (some "e") "d1" "d2"] =
        us ++ [listing_url (some "e") "d1" "d2"] ∧
      ∀ x ∈ us, ∃ b,
        _retrieve_mpps_by_updated_at_date pageMissingWorld anyDates x =
          .ok b) := by
  have h := c5_fetch_abort badWorld anyDates "d1" "d2" (some "e") 5
    [listing_url (some "e") "d1" "d2"] (.error .typeErr) rfl
    (listing_url (some "e") "d1" "d2") .typeErr (by simp) rfl
  have h2 := c5_fetch_abort dateMissingWorld anyDates "d1" "d2" (some "e") 5
    [listing_url (some "e") "d1" "d2"] (.error .apiExc) rfl
    (listing_url (some "e") "d1" "d2") .apiExc (by simp) rfl
  have h3 := c5_fetch_abort pageMissingWorld anyDates "d1" "d2" (some "e") 5
    [listing_url (some "e") "d1" "d2"] (.error .apiExc) rfl
    (listing_url (some "e") "d1" "d2") .apiExc (by simp) rfl
  exact ⟨h.2.2.1, h.2.1, h2.2.1, h3.2.2.2.1⟩

end BackupMpps
